import Mathlib

/-!
Shallow embedding of `src/main.py` (class `URL`): URL decomposition and the
HTTP request/response engine, modelled over `List Char` streams.  Python
strings become `List Char`; the buffered socket file becomes an input
`List Char` consumed by `readLine` / `fileRead`; raised exceptions become
`Option`/`Except` error values.
-/

deriving instance DecidableEq for Except

/-- Python `str.isspace` characters relevant to `str.strip()` (ASCII subset). -/
def pyIsSpace (c : Char) : Bool :=
  c == ' ' || c == '\t' || c == '\n' || c == '\r' || c == '\x0b' || c == '\x0c'

/-- Python `str.strip()`: drop leading and trailing whitespace. -/
def pyStrip (s : List Char) : List Char :=
  ((s.dropWhile pyIsSpace).reverse.dropWhile pyIsSpace).reverse

/-- Python `file.readline()` on a byte stream: the prefix up to and including
the first newline (or the whole stream at EOF), paired with the remainder. -/
def readLine : List Char → List Char × List Char
  | [] => ([], [])
  | c :: cs =>
    if c = '\n' then ([c], cs)
    else (c :: (readLine cs).1, (readLine cs).2)

/-- Python `file.read(n)`: `n` bytes (a negative `n` reads to EOF), paired
with the remainder of the stream. -/
def fileRead (n : Int) (s : List Char) : List Char × List Char :=
  if n < 0 then (s, []) else (s.take n.toNat, s.drop n.toNat)

/-- Python `str.split()` with no separator: split on whitespace runs,
discarding empty fields (auxiliary accumulator form). -/
def pySplitWsAux : List Char → List Char → List (List Char)
  | [], acc => if acc.isEmpty then [] else [acc.reverse]
  | c :: cs, acc =>
    if pyIsSpace c then
      if acc.isEmpty then pySplitWsAux cs [] else acc.reverse :: pySplitWsAux cs []
    else pySplitWsAux cs (c :: acc)

/-- Python `str.split()` with no separator. -/
def pySplitWs (s : List Char) : List (List Char) := pySplitWsAux s []

/-- Decimal digit value of a character, if any. -/
def digitVal10 (c : Char) : Option Nat :=
  if '0' ≤ c ∧ c ≤ '9' then some (c.toNat - 48) else none

/-- Value of a nonempty decimal digit string (auxiliary accumulator form). -/
def decDigitsValAux : List Char → Nat → Option Nat
  | [], acc => some acc
  | c :: cs, acc =>
    match digitVal10 c with
    | none => none
    | some d => decDigitsValAux cs (acc * 10 + d)

/-- Value of a decimal digit string; `none` on the empty string. -/
def decDigitsVal : List Char → Option Nat
  | [] => none
  | l => decDigitsValAux l 0

/-- Python `int(s)`: optional sign followed by decimal digits; `none` models
the raised `ValueError` on any other input. -/
def pyInt (s : List Char) : Option Int :=
  match pyStrip s with
  | '-' :: rest => (decDigitsVal rest).map (fun n => -(n : Int))
  | '+' :: rest => (decDigitsVal rest).map (fun n => (n : Int))
  | t => (decDigitsVal t).map (fun n => (n : Int))

/-- Hexadecimal digit value of a character, if any. -/
def hexDigitVal (c : Char) : Option Nat :=
  if '0' ≤ c ∧ c ≤ '9' then some (c.toNat - 48)
  else if 'a' ≤ c ∧ c ≤ 'f' then some (c.toNat - 87)
  else if 'A' ≤ c ∧ c ≤ 'F' then some (c.toNat - 55)
  else none

/-- Value of a nonempty hex digit string (auxiliary accumulator form). -/
def hexDigitsValAux : List Char → Nat → Option Nat
  | [], acc => some acc
  | c :: cs, acc =>
    match hexDigitVal c with
    | none => none
    | some d => hexDigitsValAux cs (acc * 16 + d)

/-- Value of a hex digit string; `none` on the empty string. -/
def hexDigitsVal : List Char → Option Nat
  | [] => none
  | l => hexDigitsValAux l 0

/-- Hex digits with an optional `0x`/`0X` prefix, as accepted by
Python `int(s, 16)`. -/
def hexCore : List Char → Option Nat
  | '0' :: 'x' :: rest => hexDigitsVal rest
  | '0' :: 'X' :: rest => hexDigitsVal rest
  | s => hexDigitsVal s

/-- Python `int(s, 16)`: optional sign, optional `0x` prefix, hex digits;
`none` models the raised `ValueError`. -/
def pyIntHex (s : List Char) : Option Int :=
  match pyStrip s with
  | '-' :: rest => (hexCore rest).map (fun n => -(n : Int))
  | '+' :: rest => (hexCore rest).map (fun n => (n : Int))
  | t => (hexCore t).map (fun n => (n : Int))

/-- A Python `dict[str, str]` preserving insertion order. -/
abbrev Headers := List (List Char × List Char)

/-- Python `d[k] = v`: overwrite in place if `k` is present, else append. -/
def dictSet (h : Headers) (k v : List Char) : Headers :=
  if h.any (fun p => p.1 == k) then
    h.map (fun p => if p.1 == k then (k, v) else p)
  else h ++ [(k, v)]

/-- Python `d.get(k)` / `k in d`: the value stored at `k`, if any. -/
def dictFind (h : Headers) (k : List Char) : Option (List Char) :=
  (h.find? (fun p => p.1 == k)).map (fun p => p.2)

/-- Python `d.get(k, default)`. -/
def dictGetD (h : Headers) (k d : List Char) : List Char :=
  (dictFind h k).getD d

/-- Python `s.split(sep, 1)` when `sep` occurs in `s`: the part before the
first occurrence and the part after it. -/
def splitFirstAt (c : Char) (l : List Char) : List Char × List Char :=
  (l.takeWhile (fun x => x != c), (l.dropWhile (fun x => x != c)).drop 1)

/-- Python `str.find(sub)`: index of the first occurrence, `none` if absent. -/
def findSub (s pat : List Char) : Option Nat :=
  match s with
  | [] => if pat.isEmpty then some 0 else none
  | _ :: t => if pat.isPrefixOf s then some 0 else (findSub t pat).map (fun i => i + 1)

/-- Python `str.find(ch)` for a single-character needle. -/
def findChar (c : Char) : List Char → Option Nat
  | [] => none
  | x :: xs => if x = c then some 0 else (findChar c xs).map (fun i => i + 1)

/-- The scheme separator literal `"://"` (main.py line 34). -/
def schemeSep : List Char := "://".data

/-- `URL.parse_scheme` (main.py lines 28-47): locate `"://"`; absent means
the scheme defaults to `"http"`; otherwise the lower-cased prefix must be
`http` or `https`, else a `ValueError` (modelled as `.error msg`) is raised.
A falsy (empty) `url_string` yields `none`. -/
def parse_scheme (url : List Char) : Except (List Char) (Option (List Char)) :=
  if url = [] then .ok none
  else
    match findSub url schemeSep with
    | none => .ok (some "http".data)
    | some i =>
      let scheme := (url.take i).map Char.toLower
      if scheme = "http".data ∨ scheme = "https".data then .ok (some scheme)
      else .error ("Unsupported scheme: ".data ++ scheme
            ++ ". Only http and https are supported.".data)

/-- The remainder of the URL after stripping the scheme prefix, if present
(main.py lines 54-60). -/
def stripScheme (url : List Char) : List Char :=
  match findSub url schemeSep with
  | none => url
  | some i => url.drop (i + schemeSep.length)

/-- `URL.parse_host_and_path` (main.py lines 49-81): split the remainder at
the first `/`; with no slash the whole remainder is the host and the path
defaults to `"/"`; then drop a `?...` or `#...` suffix from the host only. -/
def parse_host_and_path (url : List Char) : Option (List Char) × Option (List Char) :=
  if url = [] then (none, none)
  else
    let rem := stripScheme url
    let host :=
      match findChar '/' rem with
      | none => rem
      | some j => rem.take j
    let path :=
      match findChar '/' rem with
      | none => "/".data
      | some j => rem.drop j
    let host := if host.contains '?' then host.takeWhile (fun c => c != '?') else host
    let host := if host.contains '#' then host.takeWhile (fun c => c != '#') else host
    (some host, some path)

/-- The fields of a constructed `URL` object (main.py lines 5-12). -/
structure URLRec where
  url_string : List Char
  scheme : Option (List Char)
  host : Option (List Char)
  path : Option (List Char)
deriving DecidableEq

/-- `URL.__init__` followed by `URL.parse` (main.py lines 5-26): a falsy
(empty) `url_string` leaves every field `None`; otherwise the scheme is
parsed and validated (propagating the `ValueError`), then host and path. -/
def URL.init (url : List Char) : Except (List Char) URLRec :=
  if url = [] then .ok ⟨url, none, none, none⟩
  else
    match parse_scheme url with
    | .error e => .error e
    | .ok sch => .ok ⟨url, sch, (parse_host_and_path url).1, (parse_host_and_path url).2⟩

/-- One iteration of the `while` loop of `URL._read_chunked_response`
(main.py lines 223-244): `none` when the loop breaks (blank size line,
non-hex size line, or a zero size), otherwise the chunk data read together
with the stream position after discarding the trailing line terminator. -/
def chunkStep (s : List Char) : Option (List Char × List Char) :=
  if pyStrip (readLine s).1 = [] then none
  else
    match pyIntHex (pyStrip (readLine s).1) with
    | none => none
    | some n =>
      if n = 0 then none
      else some ((fileRead n (readLine s).2).1, (readLine (fileRead n (readLine s).2).2).2)

/-- Fuel-indexed unrolling of the `URL._read_chunked_response` loop; the
fuel never runs out when it starts at `s.length + 1` because every
iteration consumes at least one character of the stream. -/
def readChunkedF : Nat → List Char → List Char
  | 0, _ => []
  | f + 1, s =>
    match chunkStep s with
    | none => []
    | some (data, rest) => data ++ readChunkedF f rest

/-- `URL._read_chunked_response` (main.py lines 219-246): accumulate chunk
data until the loop breaks, returning the concatenated body. -/
def readChunked (s : List Char) : List Char := readChunkedF (s.length + 1) s

/-- The effect of one header line on the headers dict (main.py lines
174-176): a line containing `:` is split at the first `:`, both sides
stripped, and stored; other lines are ignored. -/
def headerLineUpdate (line : List Char) (headers : Headers) : Headers :=
  if line.contains ':' then
    dictSet headers (pyStrip (splitFirstAt ':' line).1) (pyStrip (splitFirstAt ':' line).2)
  else headers

/-- Fuel-indexed unrolling of the header-reading loop (main.py lines
169-176): read stripped lines until an empty one, folding each into the
dict; returns the dict and the rest of the stream. -/
def parseHeadersF : Nat → List Char → Headers → Headers × List Char
  | 0, s, acc => (acc, s)
  | f + 1, s, acc =>
    if pyStrip (readLine s).1 = [] then (acc, (readLine s).2)
    else parseHeadersF f (readLine s).2 (headerLineUpdate (pyStrip (readLine s).1) acc)

/-- The header-reading loop started on a stream with a given accumulated
dict; the fuel `s.length + 1` is always sufficient. -/
def parseHeadersRun (s : List Char) (acc : Headers) : Headers × List Char :=
  parseHeadersF (s.length + 1) s acc

/-- The header-reading loop as executed by `URL.request` (starting from an
empty dict). -/
def parseHeaders (s : List Char) : Headers × List Char := parseHeadersRun s []

/-- Body framing in `URL.request` (main.py lines 178-190): a present
`Content-Length` header wins and exactly that many bytes are read (a
non-integer value raises, modelled as `none`); otherwise a
`Transfer-Encoding` equal to `chunked` case-insensitively runs the chunked
decoder; otherwise everything up to end of stream is the body. -/
def readBody (headers : Headers) (s : List Char) : Option (List Char) :=
  match dictFind headers "Content-Length".data with
  | some v =>
    match pyInt v with
    | none => none
    | some n => some ((fileRead n s).1)
  | none =>
    if (dictGetD headers "Transfer-Encoding".data []).map Char.toLower = "chunked".data then
      some (readChunked s)
    else some s

/-- Status-code extraction (main.py lines 195-200): the second
whitespace-separated token of the status line parsed with `int` (whose
`ValueError` is modelled as `none`); fewer than two tokens give `0`. -/
def parseStatusCode (line : List Char) : Option Int :=
  match pySplitWs line with
  | _ :: p1 :: _ => pyInt p1
  | _ => some 0

/-- The Python exceptions distinguished by the `except` clauses of
`URL.request` (main.py lines 210-217). -/
inductive PyExc
  | socketTimeout
  | gaierror (msg : List Char)
  | connectionRefused
  | valueError (msg : List Char)
deriving DecidableEq

/-- The categorized failures `URL.request` surfaces; in the Python they are
all `Exception` values distinguished by their message (see `errMessage`). -/
inductive ReqError
  | connectTimeout
  | dnsFailed (msg : List Char)
  | connectionRefused
  | downloadFailed (msg : List Char)
deriving DecidableEq

/-- The `except` chain of `URL.request` (main.py lines 210-217): which
categorized failure each transport exception is re-raised as. -/
def exceptChain : PyExc → ReqError
  | .socketTimeout => .connectTimeout
  | .gaierror m => .dnsFailed m
  | .connectionRefused => .connectionRefused
  | .valueError m => .downloadFailed m

/-- The message of each re-raised failure (main.py lines 210-217). -/
def errMessage : ReqError → List Char
  | .connectTimeout => "Connection timeout".data
  | .dnsFailed m => "DNS resolution failed: ".data ++ m
  | .connectionRefused => "Connection refused".data
  | .downloadFailed m => "Download failed: ".data ++ m

/-- The connect/read timeout installed by `sock.settimeout(10)` (main.py
line 125). -/
def timeoutSeconds : Nat := 10

/-- The transport environment of one `URL.request` call: whether opening
the connection raises, whether reading raises, and the response bytes the
peer sends.  The socket itself and the request write are abstracted; only
their failure modes are represented. -/
structure World where
  connectExc : Option PyExc
  readExc : Option PyExc
  response : List Char
deriving DecidableEq

/-- The result dict of a successful `URL.request` (main.py lines 202-208). -/
structure Resp where
  content : List Char
  status_code : Int
  headers : Headers
  method : List Char
deriving DecidableEq

/-- The response-handling flow of `URL.request` (main.py lines 122-217),
paired with whether `sock.close()` was executed: a connect or read
exception is categorized by the `except` chain and the socket is left
unclosed (there is no `finally`); otherwise the status line and headers
are read, the body framed by `readBody` (a `ValueError` there also skips
`close`), the socket closed, and only then the status code parsed (a
`ValueError` there occurs after the close). -/
def request (method : List Char) (w : World) : Except ReqError Resp × Bool :=
  match w.connectExc with
  | some e => (.error (exceptChain e), false)
  | none =>
    match w.readExc with
    | some e => (.error (exceptChain e), false)
    | none =>
      let statusLine := pyStrip (readLine w.response).1
      let hp := parseHeaders (readLine w.response).2
      match readBody hp.1 hp.2 with
      | none => (.error (exceptChain (.valueError "invalid literal for int".data)), false)
      | some body =>
        match parseStatusCode statusLine with
        | none => (.error (exceptChain (.valueError "invalid literal for int".data)), true)
        | some code => (.ok ⟨body, code, hp.1, method⟩, true)

/-- The POST body argument of `URL.request`: a dict (insertion-ordered
key/value pairs) or a preformatted string (main.py lines 145-150). -/
inductive PostBody
  | dict (kvs : List (List Char × List Char))
  | raw (s : List Char)
deriving DecidableEq

/-- Python truthiness of the body argument (`if data and method == "POST"`,
main.py line 145): an empty dict or empty string is falsy. -/
def pyTruthy : PostBody → Bool
  | .dict kvs => !kvs.isEmpty
  | .raw s => !s.isEmpty

/-- Body encoding (main.py lines 146-150): a dict becomes its `key=value`
pairs joined by `&` with no percent-encoding; anything else is sent as the
string it already is. -/
def encodeBody : PostBody → List Char
  | .dict kvs => List.intercalate "&".data (kvs.map (fun p => p.1 ++ "=".data ++ p.2))
  | .raw s => s

/-- Decimal digit character. -/
def natDigitChar (n : Nat) : Char := Char.ofNat (48 + n % 10)

/-- Fuel-indexed decimal rendering of a natural number. -/
def natReprF : Nat → Nat → List Char
  | 0, _ => []
  | f + 1, n => if n < 10 then [natDigitChar n] else natReprF f (n / 10) ++ [natDigitChar (n % 10)]

/-- Decimal rendering of a natural number, as Python `str` / f-string
interpolation produces for `len(encoded_data)`. -/
def natRepr (n : Nat) : List Char := natReprF (n + 1) n

/-- UTF-8 encoded size of one character, as produced by Python
`str.encode("utf-8")` (main.py line 160). -/
def utf8Size (c : Char) : Nat :=
  if c.toNat < 128 then 1 else if c.toNat < 2048 then 2 else if c.toNat < 65536 then 3 else 4

/-- UTF-8 encoded byte length of a string. -/
def utf8Len (s : List Char) : Nat := (s.map utf8Size).sum

/-- The tail of the serialized request after the fixed headers (main.py
lines 144-157): for a truthy POST body, the `Content-Type` and
`Content-Length` headers — the latter holding `len(encoded_data)`, a
character count — a blank line and the encoded body; otherwise just the
blank line ending the headers. -/
def requestTail (method contentType : List Char) (data : Option PostBody) : List Char :=
  match data with
  | some d =>
    if pyTruthy d ∧ method = "POST".data then
      "Content-Type: ".data ++ contentType ++ "\r\n".data
        ++ "Content-Length: ".data ++ natRepr (encodeBody d).length ++ "\r\n".data
        ++ "\r\n".data ++ encodeBody d
    else "\r\n".data
  | none => "\r\n".data

/-! ## Sanity checks of the embedding against observable behaviour -/

theorem sanity_url_roundtrip :
    URL.init "http://example.com/a/b".data =
      .ok ⟨"http://example.com/a/b".data, some "http".data, some "example.com".data,
        some "/a/b".data⟩
    ∧ URL.init "HTTPS://Sub.example.com/p?q=v".data =
      .ok ⟨"HTTPS://Sub.example.com/p?q=v".data, some "https".data,
        some "Sub.example.com".data, some "/p?q=v".data⟩
    ∧ URL.init "sub.example.com?q=1".data =
      .ok ⟨"sub.example.com?q=1".data, some "http".data, some "sub.example.com".data,
        some "/".data⟩ := by
  refine ⟨by decide, by decide, by decide⟩

theorem sanity_request_success :
    request "GET".data ⟨none, none, "HTTP/1.1 200 OK\r\nContent-Length: 2\r\n\r\nhiEXTRA".data⟩ =
      (.ok ⟨"hi".data, 200, [("Content-Length".data, "2".data)], "GET".data⟩, true) := by
  decide

/-! ## Stream-consumption lemmas -/

theorem readLine_append (s : List Char) : (readLine s).1 ++ (readLine s).2 = s := by
  induction s with
  | nil => rfl
  | cons c cs ih =>
    by_cases h : c = '\n'
    · simp [readLine, h]
    · simp [readLine, h, ih]

theorem readLine_snd_length_le (s : List Char) : (readLine s).2.length ≤ s.length := by
  have h := congrArg List.length (readLine_append s)
  rw [List.length_append] at h
  omega

theorem readLine_snd_length_lt (s : List Char) (h : (readLine s).1 ≠ []) :
    (readLine s).2.length < s.length := by
  have hl := congrArg List.length (readLine_append s)
  rw [List.length_append] at hl
  have : 0 < (readLine s).1.length := List.length_pos.mpr h
  omega

theorem pyStrip_nil : pyStrip [] = [] := rfl

theorem pyStrip_ne_nil {s : List Char} (h : pyStrip s ≠ []) : s ≠ [] := by
  intro he
  exact h (by rw [he]; rfl)

theorem fileRead_snd_length_le (n : Int) (s : List Char) :
    (fileRead n s).2.length ≤ s.length := by
  unfold fileRead
  split
  · simp
  · simp [List.length_drop]

/-! ## Chunked-decoder unfolding lemmas -/

theorem chunkStep_some_length_lt {s : List Char} {d r : List Char}
    (h : chunkStep s = some (d, r)) : r.length < s.length := by
  have hne : pyStrip (readLine s).1 ≠ [] := by
    intro he
    simp [chunkStep, he] at h
  have hfst : (readLine s).1 ≠ [] := pyStrip_ne_nil hne
  rw [chunkStep, if_neg hne] at h
  split at h
  · exact absurd h (by simp)
  · rename_i n hx
    split at h
    · exact absurd h (by simp)
    · rename_i hn
      injection h with h2
      injection h2 with hd hr
      subst hr
      calc (readLine (fileRead n (readLine s).2).2).2.length
          ≤ (fileRead n (readLine s).2).2.length := readLine_snd_length_le _
        _ ≤ (readLine s).2.length := fileRead_snd_length_le _ _
        _ < s.length := readLine_snd_length_lt s hfst

theorem readChunkedF_congr :
    ∀ f g s, s.length < f → s.length < g → readChunkedF f s = readChunkedF g s := by
  intro f
  induction f with
  | zero => intro g s hf _; omega
  | succ f ih =>
    intro g s hf hg
    cases g with
    | zero => omega
    | succ g =>
      simp only [readChunkedF]
      cases hc : chunkStep s with
      | none => rfl
      | some pr =>
        obtain ⟨d, r⟩ := pr
        have hr := chunkStep_some_length_lt hc
        have heq := ih g r (by omega) (by omega)
        show d ++ readChunkedF f r = d ++ readChunkedF g r
        rw [heq]

theorem readChunked_break {s : List Char} (h : chunkStep s = none) : readChunked s = [] := by
  unfold readChunked
  simp [readChunkedF, h]

theorem readChunked_step {s d r : List Char} (h : chunkStep s = some (d, r)) :
    readChunked s = d ++ readChunked r := by
  have hr := chunkStep_some_length_lt h
  unfold readChunked
  have h1 : readChunkedF (s.length + 1) s = d ++ readChunkedF s.length r := by
    simp [readChunkedF, h]
  rw [h1]
  have h2 := readChunkedF_congr s.length (r.length + 1) r (by omega) (by omega)
  rw [h2]

/-! ## Header-loop unfolding lemmas -/

theorem parseHeadersF_congr :
    ∀ f g s acc, s.length < f → s.length < g → parseHeadersF f s acc = parseHeadersF g s acc := by
  intro f
  induction f with
  | zero => intro g s acc hf _; omega
  | succ f ih =>
    intro g s acc hf hg
    cases g with
    | zero => omega
    | succ g =>
      simp only [parseHeadersF]
      by_cases h : pyStrip (readLine s).1 = []
      · simp [h]
      · have hlt := readLine_snd_length_lt s (pyStrip_ne_nil h)
        rw [if_neg h, if_neg h]
        exact ih g _ _ (by omega) (by omega)

theorem parseHeadersRun_stop {s : List Char} (acc : Headers)
    (h : pyStrip (readLine s).1 = []) : parseHeadersRun s acc = (acc, (readLine s).2) := by
  unfold parseHeadersRun
  simp [parseHeadersF, h]

theorem parseHeadersRun_step {s : List Char} (acc : Headers)
    (h : pyStrip (readLine s).1 ≠ []) :
    parseHeadersRun s acc =
      parseHeadersRun (readLine s).2 (headerLineUpdate (pyStrip (readLine s).1) acc) := by
  have hlt := readLine_snd_length_lt s (pyStrip_ne_nil h)
  unfold parseHeadersRun
  have h1 : parseHeadersF (s.length + 1) s acc =
      parseHeadersF s.length (readLine s).2 (headerLineUpdate (pyStrip (readLine s).1) acc) := by
    simp [parseHeadersF, h]
  rw [h1]
  exact parseHeadersF_congr s.length ((readLine s).2.length + 1) _ _ (by omega) (by omega)

/-! ## Dict lemmas -/

theorem dictSet_cons_ne {p : List Char × List Char} {t : Headers} {k v : List Char}
    (hbe : (p.1 == k) = false) : dictSet (p :: t) k v = p :: dictSet t k v := by
  by_cases ht : t.any (fun q => q.1 == k) = true
  · rw [dictSet, if_pos (by simp only [List.any_cons, ht, Bool.or_true]),
      dictSet, if_pos ht, List.map_cons]
    simp [hbe]
  · have ht' : t.any (fun q => q.1 == k) = false := Bool.eq_false_iff.mpr ht
    have hcons : (p :: t).any (fun q => q.1 == k) = false := by
      simp only [List.any_cons, hbe, ht', Bool.or_self]
    rw [dictSet, if_neg (by simp only [hcons]; exact Bool.false_ne_true),
      dictSet, if_neg (by simp only [ht']; exact Bool.false_ne_true)]
    rfl

theorem dictFind_cons_ne {p : List Char × List Char} {t : Headers} {k : List Char}
    (hbe : (p.1 == k) = false) : dictFind (p :: t) k = dictFind t k := by
  simp [dictFind, List.find?_cons, hbe]

theorem dictFind_dictSet_self (h : Headers) (k v : List Char) :
    dictFind (dictSet h k v) k = some v := by
  induction h with
  | nil => simp [dictSet, dictFind]
  | cons p t ih =>
    by_cases hp : p.1 = k
    · have hbe : (p.1 == k) = true := beq_iff_eq.mpr hp
      have hany : (p :: t).any (fun q => q.1 == k) = true := by simp [List.any_cons, hbe]
      rw [dictSet, if_pos hany, List.map_cons]
      simp only [hbe, if_true]
      simp [dictFind, List.find?_cons]
    · have hbe : (p.1 == k) = false := beq_eq_false_iff_ne.mpr hp
      rw [dictSet_cons_ne hbe, dictFind_cons_ne hbe]
      exact ih

/-! ## URL-side lemmas -/

theorem findChar_drop_head {c : Char} :
    ∀ {s : List Char} {j : Nat}, findChar c s = some j → (s.drop j).head? = some c := by
  intro s
  induction s with
  | nil => intro j h; cases h
  | cons x xs ih =>
    intro j h
    by_cases hx : x = c
    · rw [findChar, if_pos hx] at h
      injection h with hj
      subst hj
      simp [hx]
    · rw [findChar, if_neg hx] at h
      cases hj : findChar c xs with
      | none => rw [hj] at h; cases h
      | some j' =>
        rw [hj] at h
        injection h with hjj
        subst hjj
        simpa using ih hj

theorem isPrefixOf_append (a b : List Char) : a.isPrefixOf (a ++ b) = true := by
  induction a with
  | nil => cases b <;> rfl
  | cons x xs ih => simp [List.isPrefixOf, ih]

/-! ## Claim theorems -/

/-- C1: Body framing follows a fixed priority order.  If a `Content-Length`
header is present (with value parsing as a nonnegative integer `n`), exactly
`n` bytes of the stream are read as the body, regardless of any
`Transfer-Encoding` header; otherwise, if the `Transfer-Encoding` value
equals `chunked` case-insensitively, the chunked decoder runs on the stream;
otherwise the whole remaining stream (until the peer closes it) is the body. -/
theorem body_framing (headers : Headers) (s : List Char) :
    (∀ v n, dictFind headers "Content-Length".data = some v →
      pyInt v = some (Int.ofNat n) → readBody headers s = some (s.take n))
    ∧ (dictFind headers "Content-Length".data = none →
      (dictGetD headers "Transfer-Encoding".data []).map Char.toLower = "chunked".data →
      readBody headers s = some (readChunked s))
    ∧ (dictFind headers "Content-Length".data = none →
      (dictGetD headers "Transfer-Encoding".data []).map Char.toLower ≠ "chunked".data →
      readBody headers s = some s) := by
  refine ⟨?_, ?_, ?_⟩
  · intro v n hfind hint
    simp only [readBody, hfind, hint]
    have h0 : ¬ ((Int.ofNat n) < 0) := by
      simp only [Int.ofNat_eq_natCast]
      omega
    rw [fileRead, if_neg h0]
    simp
  · intro hfind hte
    simp only [readBody, hfind, if_pos hte]
  · intro hfind hte
    simp only [readBody, hfind, if_neg hte]

/-- C1 witness: a response carrying both `Content-Length: 5` and
`Transfer-Encoding: chunked` reads exactly 5 bytes of `"helloEXTRA"`; without
`Content-Length`, a chunked response runs the decoder, and a plain response
reads to end of stream. -/
theorem body_framing_witness :
    readBody [("Content-Length".data, "5".data), ("Transfer-Encoding".data, "chunked".data)]
        "helloEXTRA".data = some ("helloEXTRA".data.take 5)
    ∧ readBody [("Transfer-Encoding".data, "chunked".data)] "2\r\nhi\r\n0\r\n\r\n".data =
        some (readChunked "2\r\nhi\r\n0\r\n\r\n".data)
    ∧ readBody [("X".data, "1".data)] "rawbytes".data = some "rawbytes".data :=
  ⟨(body_framing _ _).1 "5".data 5 (by decide) (by decide),
   (body_framing _ _).2.1 (by decide) (by decide),
   (body_framing _ _).2.2 (by decide) (by decide)⟩

/-- C2: The chunked decoder turns `"4\r\nWiki\r\n5\r\npedia\r\n0\r\n\r\n"`
into `"Wikipedia"`.  In general, when the stripped size line is nonempty hex
`n ≠ 0`, it reads exactly `n` bytes of chunk data, discards the following
line terminator and loops, prepending the data to the rest of the decode;
a size of `0` stops with the accumulated body, and a non-hex size line also
stops, returning the partial body (no error is raised, as the concrete
stream with a `ZZ` size line shows). -/
theorem chunked_decoder :
    readChunked "4\r\nWiki\r\n5\r\npedia\r\n0\r\n\r\n".data = "Wikipedia".data
    ∧ (∀ s n, pyStrip (readLine s).1 ≠ [] →
        pyIntHex (pyStrip (readLine s).1) = some n → n ≠ 0 →
        readChunked s = (fileRead n (readLine s).2).1
          ++ readChunked (readLine (fileRead n (readLine s).2).2).2)
    ∧ (∀ s, pyStrip (readLine s).1 ≠ [] →
        pyIntHex (pyStrip (readLine s).1) = some 0 → readChunked s = [])
    ∧ (∀ s, pyStrip (readLine s).1 ≠ [] →
        pyIntHex (pyStrip (readLine s).1) = none → readChunked s = [])
    ∧ readChunked "4\r\nWiki\r\nZZ\r\n5\r\npedia\r\n".data = "Wiki".data := by
  refine ⟨by decide, ?_, ?_, ?_, by decide⟩
  · intro s n hne hx hn
    exact readChunked_step (by rw [chunkStep, if_neg hne, hx]; simp [hn])
  · intro s hne hx
    exact readChunked_break (by rw [chunkStep, if_neg hne, hx]; simp)
  · intro s hne hx
    exact readChunked_break (by rw [chunkStep, if_neg hne, hx])

/-- C2 witness: one loop iteration on the concrete stream
`"4\r\nWiki\r\n0\r\n\r\n"` reads the 4-byte chunk `"Wiki"` and recurses on
the stream positioned after the discarded terminator. -/
theorem chunked_decoder_witness :
    readChunked "4\r\nWiki\r\n0\r\n\r\n".data =
      (fileRead 4 (readLine "4\r\nWiki\r\n0\r\n\r\n".data).2).1
        ++ readChunked
          (readLine (fileRead 4 (readLine "4\r\nWiki\r\n0\r\n\r\n".data).2).2).2 :=
  (chunked_decoder.2.1 "4\r\nWiki\r\n0\r\n\r\n".data 4 (by decide) (by decide) (by decide))

/-- C10: A chunk-size line that is blank after stripping — as happens at end
of stream — terminates the chunked-decoder loop, returning the body
accumulated so far without an error: a stream ending right after one chunk
decodes to that chunk's data, and the empty stream decodes to the empty
body. -/
theorem chunked_blank_line_termination :
    (∀ s, pyStrip (readLine s).1 = [] → readChunked s = [])
    ∧ readChunked "4\r\nWiki\r\n".data = "Wiki".data
    ∧ readChunked [] = [] := by
  refine ⟨?_, by decide, by decide⟩
  intro s h
  exact readChunked_break (by rw [chunkStep, if_pos h])

/-- C10 witness: the termination rule applied at the empty stream. -/
theorem chunked_blank_line_termination_witness : readChunked [] = [] :=
  chunked_blank_line_termination.1 [] (by decide)

/-- C9: Header parsing reads stripped lines until an empty one — returning
the dict and the remaining stream unchanged — and folds each line holding a
`:` into the dict by splitting at the first `:` and trimming both sides;
storing a key that is already present overwrites its value, so the last
received value wins, as the concrete duplicate-header response shows. -/
theorem header_parsing :
    (∀ s acc, pyStrip (readLine s).1 = [] → parseHeadersRun s acc = (acc, (readLine s).2))
    ∧ (∀ s acc, pyStrip (readLine s).1 ≠ [] →
        (pyStrip (readLine s).1).contains ':' = true →
        parseHeadersRun s acc = parseHeadersRun (readLine s).2
          (dictSet acc (pyStrip (splitFirstAt ':' (pyStrip (readLine s).1)).1)
            (pyStrip (splitFirstAt ':' (pyStrip (readLine s).1)).2)))
    ∧ (∀ h k v, dictFind (dictSet h k v) k = some v)
    ∧ parseHeaders "A: 1\r\nA:2  \r\n\r\nBODY".data = ([("A".data, "2".data)], "BODY".data) := by
  refine ⟨?_, ?_, dictFind_dictSet_self, by decide⟩
  · intro s acc h
    exact parseHeadersRun_stop acc h
  · intro s acc h hc
    rw [parseHeadersRun_step acc h, headerLineUpdate, if_pos hc]

/-- C9 witness: the stop rule on a blank-line stream and the step rule on a
concrete header line `"Host: x\r\n"`. -/
theorem header_parsing_witness :
    parseHeadersRun "\r\nrest".data [] = ([], "rest".data)
    ∧ parseHeadersRun "Host: x\r\n\r\n".data [] =
        parseHeadersRun (readLine "Host: x\r\n\r\n".data).2
          (dictSet [] (pyStrip (splitFirstAt ':' (pyStrip (readLine "Host: x\r\n\r\n".data).1)).1)
            (pyStrip (splitFirstAt ':' (pyStrip (readLine "Host: x\r\n\r\n".data).1)).2))
    ∧ dictFind (dictSet [("A".data, "1".data)] "A".data "2".data) "A".data = some "2".data :=
  ⟨header_parsing.1 "\r\nrest".data [] (by decide),
   header_parsing.2.1 "Host: x\r\n\r\n".data [] (by decide) (by decide),
   header_parsing.2.2.1 [("A".data, "1".data)] "A".data "2".data⟩

/-- C5 counterexample: the status line `"HTTP/1.1 abc"` is malformed, yet
the exchange is aborted — the `int` call on the second token raises and the
engine surfaces `Download failed`, producing no response with status 0. -/
theorem status_line_abort_cex :
    (request "GET".data ⟨none, none, "HTTP/1.1 abc\r\n\r\nx".data⟩).1 =
      .error (.downloadFailed "invalid literal for int".data)
    ∧ parseStatusCode (pyStrip (readLine "HTTP/1.1 abc\r\n\r\nx".data).1) = none := by
  constructor <;> decide

/-- C5 (amended): a status line with fewer than two whitespace-separated
tokens yields status code `0` and processing continues to a complete
response; with at least two tokens the second is parsed by `int`, whose
failure on a non-integer token aborts the exchange (see the
counterexample) instead of degrading to `0`. -/
theorem status_code_parsing :
    (∀ line, (pySplitWs line).length < 2 → parseStatusCode line = some 0)
    ∧ (∀ line p0 p1 rest, pySplitWs line = p0 :: p1 :: rest → parseStatusCode line = pyInt p1)
    ∧ (∀ w method body, w.connectExc = none → w.readExc = none →
        (pySplitWs (pyStrip (readLine w.response).1)).length < 2 →
        readBody (parseHeaders (readLine w.response).2).1
          (parseHeaders (readLine w.response).2).2 = some body →
        (request method w).1 = .ok ⟨body, 0, (parseHeaders (readLine w.response).2).1, method⟩) := by
  have hshort : ∀ line, (pySplitWs line).length < 2 → parseStatusCode line = some 0 := by
    intro line h
    rw [parseStatusCode]
    match hp : pySplitWs line with
    | [] => rfl
    | [p0] => rfl
    | p0 :: p1 :: rest => rw [hp] at h; simp at h; omega
  refine ⟨hshort, ?_, ?_⟩
  · intro line p0 p1 rest hp
    rw [parseStatusCode, hp]
  · intro w method body h1 h2 h3 h4
    obtain ⟨ce, re, resp⟩ := w
    simp only at h1 h2 h3 h4
    subst h1
    subst h2
    simp only [request, h4, hshort _ h3]

/-- C5 witness: a one-token status line `"HTTP/1.1"` gives status code `0`
while processing continues to a complete response; the token rules applied
at concrete status lines. -/
theorem status_code_parsing_witness :
    parseStatusCode "HTTP/1.1".data = some 0
    ∧ parseStatusCode "HTTP/1.1 200 OK".data = pyInt "200".data
    ∧ (request "GET".data ⟨none, none, "HTTP/1.1\r\n\r\nBODY".data⟩).1 =
        .ok ⟨"BODY".data, 0,
          (parseHeaders (readLine "HTTP/1.1\r\n\r\nBODY".data).2).1, "GET".data⟩ :=
  ⟨status_code_parsing.1 "HTTP/1.1".data (by decide),
   status_code_parsing.2.1 "HTTP/1.1 200 OK".data "HTTP/1.1".data "200".data ["OK".data]
     (by decide),
   status_code_parsing.2.2 ⟨none, none, "HTTP/1.1\r\n\r\nBODY".data⟩ "GET".data "BODY".data
     rfl rfl (by decide) (by decide)⟩

/-- C6: A `socket.timeout` raised while connecting or while reading makes
`request` fail with the categorized `connectTimeout` error — which is a
different category from the catch-all `downloadFailed` and carries the
message `Connection timeout` — a DNS failure surfaces as `dnsFailed` and an
actively refused connection as `connectionRefused`; the configured timeout
is the fixed 10 units. -/
theorem transport_error_categorization :
    (∀ method w, w.connectExc = some .socketTimeout →
      (request method w).1 = .error .connectTimeout)
    ∧ (∀ method w, w.connectExc = none → w.readExc = some .socketTimeout →
      (request method w).1 = .error .connectTimeout)
    ∧ (∀ method w m, w.connectExc = some (.gaierror m) →
      (request method w).1 = .error (.dnsFailed m))
    ∧ (∀ method w, w.connectExc = some .connectionRefused →
      (request method w).1 = .error .connectionRefused)
    ∧ (∀ m, ReqError.connectTimeout ≠ .downloadFailed m)
    ∧ errMessage .connectTimeout = "Connection timeout".data
    ∧ timeoutSeconds = 10 := by
  refine ⟨?_, ?_, ?_, ?_, ?_, rfl, rfl⟩
  · intro method w h
    obtain ⟨ce, re, resp⟩ := w
    simp only at h
    subst h
    rfl
  · intro method w h1 h2
    obtain ⟨ce, re, resp⟩ := w
    simp only at h1 h2
    subst h1
    subst h2
    rfl
  · intro method w m h
    obtain ⟨ce, re, resp⟩ := w
    simp only at h
    subst h
    rfl
  · intro method w h
    obtain ⟨ce, re, resp⟩ := w
    simp only at h
    subst h
    rfl
  · intro m h
    cases h

/-- C6 witness: concrete worlds exercising each categorized failure. -/
theorem transport_error_categorization_witness :
    (request "GET".data ⟨some .socketTimeout, none, []⟩).1 = .error .connectTimeout
    ∧ (request "GET".data ⟨none, some .socketTimeout, []⟩).1 = .error .connectTimeout
    ∧ (request "GET".data ⟨some (.gaierror "name or service not known".data), none, []⟩).1 =
        .error (.dnsFailed "name or service not known".data)
    ∧ (request "GET".data ⟨some .connectionRefused, none, []⟩).1 =
        .error .connectionRefused :=
  ⟨transport_error_categorization.1 "GET".data ⟨some .socketTimeout, none, []⟩ rfl,
   transport_error_categorization.2.1 "GET".data ⟨none, some .socketTimeout, []⟩ rfl rfl,
   transport_error_categorization.2.2.1 "GET".data
     ⟨some (.gaierror "name or service not known".data), none, []⟩ _ rfl,
   transport_error_categorization.2.2.2.1 "GET".data ⟨some .connectionRefused, none, []⟩ rfl⟩

/-- C7: the code does NOT close the socket on every exit path.  On the error
exits — a connect timeout, a read failure, or the `ValueError` raised by
`int` on a bad `Content-Length` — `request` raises with the close flag
still `false` (the `except` clauses re-raise without closing and there is
no `finally`); only the successful flow reaches `sock.close()`. -/
theorem socket_left_open_on_error :
    (request "GET".data ⟨some .socketTimeout, none, []⟩).2 = false
    ∧ (request "GET".data ⟨none, some .socketTimeout, []⟩).2 = false
    ∧ (request "GET".data
        ⟨none, none, "HTTP/1.1 200 OK\r\nContent-Length: zz\r\n\r\n".data⟩).2 = false
    ∧ (request "GET".data
        ⟨none, none, "HTTP/1.1 200 OK\r\nContent-Length: zz\r\n\r\n".data⟩).1 =
        .error (.downloadFailed "invalid literal for int".data)
    ∧ (request "GET".data ⟨none, none, "HTTP/1.1 200 OK\r\n\r\nhi".data⟩).2 = true := by
  refine ⟨rfl, rfl, by decide, by decide, by decide⟩

theorem parse_host_and_path_snd (url : List Char) (hne : url ≠ []) :
    (parse_host_and_path url).2 =
      some (match findChar '/' (stripScheme url) with
            | none => "/".data
            | some j => (stripScheme url).drop j) := by
  simp only [parse_host_and_path, if_neg hne]

theorem init_ok_path {url : List Char} {r : URLRec} (hne : url ≠ [])
    (hok : URL.init url = .ok r) : r.path = (parse_host_and_path url).2 := by
  rw [URL.init, if_neg hne] at hok
  cases hps : parse_scheme url with
  | error e =>
    rw [hps] at hok
    cases hok
  | ok sch =>
    rw [hps] at hok
    have h2 : (⟨url, sch, (parse_host_and_path url).1, (parse_host_and_path url).2⟩ : URLRec)
        = r := Except.ok.inj hok
    rw [← h2]

/-- C3 counterexample: the empty URL string contains no `"://"` separator,
yet decomposition succeeds with `scheme = None` rather than `http` (the
falsy-input branch of `__init__` never runs `parse`). -/
theorem scheme_default_empty_cex :
    findSub [] schemeSep = none
    ∧ URL.init [] = .ok ⟨[], none, none, none⟩
    ∧ (⟨[], none, none, none⟩ : URLRec).scheme ≠ some "http".data := by
  refine ⟨by decide, by decide, by decide⟩

/-- C3 (amended): a URL string whose prefix before the first `"://"`,
lower-cased, is neither `http` nor `https` fails with the
unsupported-scheme error; every NON-EMPTY URL string without `"://"`
decomposes with scheme `http` (the empty string instead leaves every field
`None`). -/
theorem scheme_validation :
    (∀ url i, findSub url schemeSep = some i →
      (url.take i).map Char.toLower ≠ "http".data →
      (url.take i).map Char.toLower ≠ "https".data →
      ∃ e, URL.init url = .error e ∧ ("Unsupported scheme: ".data).isPrefixOf e = true)
    ∧ (∀ url, url ≠ [] → findSub url schemeSep = none →
      ∃ r, URL.init url = .ok r ∧ r.scheme = some "http".data) := by
  constructor
  · intro url i hfind h1 h2
    have hne : url ≠ [] := by
      intro he
      subst he
      rw [findSub] at hfind
      simp [schemeSep] at hfind
    have hcond : ¬ ((url.take i).map Char.toLower = "http".data
        ∨ (url.take i).map Char.toLower = "https".data) := by
      rintro (h | h)
      · exact h1 h
      · exact h2 h
    refine ⟨"Unsupported scheme: ".data ++ (url.take i).map Char.toLower
      ++ ". Only http and https are supported.".data, ?_, ?_⟩
    · simp only [URL.init, if_neg hne, parse_scheme, hfind, if_neg hcond]
    · rw [List.append_assoc]
      exact isPrefixOf_append _ _
  · intro url hne hfind
    refine ⟨⟨url, some "http".data, (parse_host_and_path url).1,
      (parse_host_and_path url).2⟩, ?_, rfl⟩
    simp only [URL.init, if_neg hne, parse_scheme, hfind]

/-- C3 witness: `"ftp://x"` is rejected with the unsupported-scheme error
and `"example.com"` decomposes with scheme `http`. -/
theorem scheme_validation_witness :
    (∃ e, URL.init "ftp://x".data = .error e
      ∧ ("Unsupported scheme: ".data).isPrefixOf e = true)
    ∧ (∃ r, URL.init "example.com".data = .ok r ∧ r.scheme = some "http".data) :=
  ⟨scheme_validation.1 "ftp://x".data 3 (by decide) (by decide) (by decide),
   scheme_validation.2 "example.com".data (by decide) (by decide)⟩

/-- C8 counterexample: decomposition of the empty URL string succeeds, but
the resulting path is `None` — not a non-empty string beginning with
`"/"`. -/
theorem path_none_empty_cex :
    URL.init [] = .ok ⟨[], none, none, none⟩
    ∧ (⟨[], none, none, none⟩ : URLRec).path = none
    ∧ (none : Option (List Char)) ≠ some "/".data :=
  ⟨by decide, rfl, by decide⟩

/-- C8 (amended): for every NON-EMPTY URL string on which decomposition
succeeds, the path is a non-empty string beginning with `/`; when the
remainder after the scheme has no `/`, the path is exactly `"/"` (on the
empty string every field is instead `None`). -/
theorem path_invariant :
    (∀ url r, url ≠ [] → URL.init url = .ok r →
      ∃ p, r.path = some p ∧ p ≠ [] ∧ p.head? = some '/')
    ∧ (∀ url r, url ≠ [] → findChar '/' (stripScheme url) = none →
      URL.init url = .ok r → r.path = some "/".data) := by
  constructor
  · intro url r hne hok
    rw [init_ok_path hne hok, parse_host_and_path_snd url hne]
    cases hf : findChar '/' (stripScheme url) with
    | none => exact ⟨"/".data, rfl, by decide, by decide⟩
    | some j =>
      refine ⟨(stripScheme url).drop j, rfl, ?_, findChar_drop_head hf⟩
      intro hnil
      have := findChar_drop_head hf
      rw [hnil] at this
      cases this
  · intro url r hne hf hok
    rw [init_ok_path hne hok, parse_host_and_path_snd url hne, hf]

/-- C8 witness: `"http://example.com/a/b"` yields the path `"/a/b"` (which
begins with `/`), and `"example.com"` — with no slash after the host —
yields exactly `"/"`. -/
theorem path_invariant_witness :
    (∃ p, (⟨"http://example.com/a/b".data, some "http".data, some "example.com".data,
        some "/a/b".data⟩ : URLRec).path = some p ∧ p ≠ [] ∧ p.head? = some '/')
    ∧ (⟨"example.com".data, some "http".data, some "example.com".data,
        some "/".data⟩ : URLRec).path = some "/".data :=
  ⟨path_invariant.1 "http://example.com/a/b".data _ (by decide) (by decide),
   path_invariant.2 "example.com".data _ (by decide) (by decide) (by decide)⟩

/-- C4 counterexample: for the mapping `{"a": "é"}` the encoded body is
`"a=é"`; the code sends `Content-Length: len(encoded_data)` = 3 (a
character count), but the UTF-8 encoded request body is 4 bytes long, so
the header does NOT equal the byte length of the body. -/
theorem content_length_charcount_cex :
    encodeBody (.dict [("a".data, "é".data)]) = "a=é".data
    ∧ (encodeBody (.dict [("a".data, "é".data)])).length = 3
    ∧ utf8Len (encodeBody (.dict [("a".data, "é".data)])) = 4
    ∧ (encodeBody (.dict [("a".data, "é".data)])).length
        ≠ utf8Len (encodeBody (.dict [("a".data, "é".data)])) := by
  refine ⟨by decide, by decide, by decide, by decide⟩

/-- C4 (amended): a POST with a truthy mapping body sends the `key=value`
pairs joined by `&` with no percent-encoding — `{"a":"1","b":"2"}` yields
wire body `"a=1&b=2"` with `Content-Length: 7` — and the `Content-Length`
sent is the CHARACTER count `len(encoded_data)` of the encoded body, which
equals the UTF-8 byte length only when the body is ASCII; a truthy
non-mapping body is sent as a preformatted string (a falsy body sends no
body section at all). -/
theorem post_body_encoding :
    encodeBody (.dict [("a".data, "1".data), ("b".data, "2".data)]) = "a=1&b=2".data
    ∧ requestTail "POST".data "application/x-www-form-urlencoded".data
        (some (.dict [("a".data, "1".data), ("b".data, "2".data)])) =
        ("Content-Type: application/x-www-form-urlencoded\r\n"
          ++ "Content-Length: 7\r\n\r\na=1&b=2").data
    ∧ (∀ d ct, pyTruthy d = true →
        requestTail "POST".data ct (some d) =
          "Content-Type: ".data ++ ct ++ "\r\n".data
            ++ "Content-Length: ".data ++ natRepr (encodeBody d).length ++ "\r\n".data
            ++ "\r\n".data ++ encodeBody d)
    ∧ (∀ b, (∀ c ∈ encodeBody b, c.toNat < 128) →
        (encodeBody b).length = utf8Len (encodeBody b))
    ∧ (∀ s, encodeBody (.raw s) = s) := by
  refine ⟨by decide, by decide, ?_, ?_, fun s => rfl⟩
  · intro d ct hd
    rw [requestTail, if_pos ⟨hd, rfl⟩]
  · intro b hb
    have hgen : ∀ l : List Char, (∀ c ∈ l, c.toNat < 128) → l.length = utf8Len l := by
      intro l hl
      induction l with
      | nil => rfl
      | cons c t ih =>
        have hc : utf8Size c = 1 := by
          rw [utf8Size, if_pos (hl c (by simp))]
        have ht := ih (fun x hx => hl x (by simp [hx]))
        simp only [utf8Len, List.map_cons, List.sum_cons, List.length_cons, hc] at ht ⊢
        omega
    exact hgen _ hb

/-- C4 witness: the general tail shape applied at a preformatted string
body, and the ASCII char-count/byte-count agreement at `{"a": "1"}`. -/
theorem post_body_encoding_witness :
    requestTail "POST".data "text/plain".data (some (.raw "hello".data)) =
      "Content-Type: ".data ++ "text/plain".data ++ "\r\n".data
        ++ "Content-Length: ".data ++ natRepr (encodeBody (.raw "hello".data)).length
        ++ "\r\n".data ++ "\r\n".data ++ encodeBody (.raw "hello".data)
    ∧ (encodeBody (.dict [("a".data, "1".data)])).length =
        utf8Len (encodeBody (.dict [("a".data, "1".data)])) :=
  ⟨post_body_encoding.2.2.1 (.raw "hello".data) "text/plain".data (by decide),
   post_body_encoding.2.2.2.1 (.dict [("a".data, "1".data)]) (by decide)⟩
